/-
Verification of the Noto animated-emoji bulk downloader
(`scripts/download_noto_emoji.py`).

The script is shallowly embedded: the network and the filesystem are
explicit parameters (an oracle `String → HttpResult` for `requests.get`,
an association list for the on-disk files, and an oracle for write
failures), Python triples become structures, and the thread pool is
modelled as a sequential fold over the catalog (the per-item outcomes and
the aggregate counters are order-independent, and the only cross-item
ordering fact proved — metadata before downloads — holds in program
order).  Byte counts divided by 1024 are modelled exactly in ℚ (the
script stores sizes as `len(content) / 1024`).
-/
import Mathlib

/-! ## Constants of the script -/

/-- `OUTPUT_DIR` of the script (the absolute-path computation from
`__file__` is collapsed to its repository-relative value). -/
def OUTPUT_DIR : String := "assets/reactions/noto"

/-- The fixed catalog endpoint `DATA_URL`. -/
def DATA_URL : String :=
  "https://googlefonts.github.io/noto-emoji-animation/data/api.json"

/-- The base URL for individual animations. -/
def BASE_URL : String := "https://fonts.gstatic.com/s/e/notoemoji/latest"

/-! ## Data model

A catalog record, as the script reads it: `emoji["codepoint"]` and
`emoji["name"]` are required (a `KeyError` otherwise), while `tags`,
`categories` and `popularity` are read with `dict.get` and a default, so
an *absent* key and a *present* key are distinguished where the default
is non-trivial. -/

structure Emoji where
  codepoint : String
  name : String
  tags : List String
  categories : Option (List String)
  popularity : Option Int
deriving DecidableEq

/-- `tags[0] if tags else name` (an absent `tags` key and an empty list
behave identically, so `tags` is embedded as a plain list). -/
def tagOf (e : Emoji) : String := e.tags.headD e.name

/-- Python `s.strip(c)`: remove every occurrence of `c` from both ends. -/
def pyStrip (c : Char) (s : String) : String :=
  (((s.toList.dropWhile (· == c)).reverse.dropWhile (· == c)).reverse).asString

/-- Python `s.replace(a, b)` for a one-character pattern: replace every
occurrence of the character `a` by `b`. -/
def pyReplaceChar (a b : Char) (s : String) : String :=
  (s.toList.map (fun c => if c = a then b else c)).asString

/-- `tag.strip(':').replace('-', '_')`. -/
def normalizeTag (tag : String) : String :=
  pyReplaceChar '-' '_' (pyStrip ':' tag)

/-- The destination key `{codepoint}_{normalizedTag}` (the filename less
its `.json` suffix). -/
def destKey (e : Emoji) : String :=
  e.codepoint ++ "_" ++ normalizeTag (tagOf e)

/-- `filename = f"{codepoint}_{tag.strip(':').replace('-', '_')}.json"`. -/
def destFilename (e : Emoji) : String := destKey e ++ ".json"

/-- `filepath = os.path.join(OUTPUT_DIR, filename)`. -/
def filepath (e : Emoji) : String := OUTPUT_DIR ++ "/" ++ destFilename e

/-- Primary URL: `f"{BASE_URL}/{codepoint}/lottie.json"`. -/
def primaryUrl (e : Emoji) : String :=
  BASE_URL ++ "/" ++ e.codepoint ++ "/lottie.json"

/-- Fallback URL: `f"{BASE_URL}/{codepoint.replace(' ', '_')}/lottie.json"`. -/
def fallbackUrl (e : Emoji) : String :=
  BASE_URL ++ "/" ++ pyReplaceChar ' ' '_' e.codepoint ++ "/lottie.json"

/-! ## Effects: network and filesystem -/

/-- Result of one `requests.get`: a determinate response (status, body
bytes) or a transport-level fault (the raised exception's message). -/
inductive HttpResult where
  | resp (status : Nat) (body : List Nat)
  | fault (reason : String)
deriving DecidableEq

/-- The on-disk state: path ↦ bytes. -/
abbrev FS := List (String × List Nat)

/-- The four tags of the per-item result triple. -/
inductive Status where
  | ok
  | skipped
  | failed
  | error
deriving DecidableEq

/-- The middle component of the result triple, with its formatted
strings kept structured (`f"{tag} ({size_kb:.1f}KB)"`,
`f"{name} HTTP {status}"`, `f"{name}: {e}"`, or the bare name). -/
inductive Msg where
  | plain (s : String)
  | okMsg (tag : String) (sizeKB : ℚ)
  | httpFail (name : String) (status : Nat)
  | exc (name reason : String)
deriving DecidableEq

/-- The `(status, msg, size)` triple returned by `download_one`; `size`
is `len(content) / 1024`, modelled exactly as the rational
`mkRat (length body) 1024`. -/
structure Outcome where
  status : Status
  msg : Msg
  size : ℚ
deriving DecidableEq

/-- What one `download_one` call produces: its outcome, the filesystem
after it, and the URLs it requested, in order. -/
structure StepResult where
  outcome : Outcome
  fs : FS
  requests : List String
deriving DecidableEq

/-- `download_one(emoji, index, total)`.  `net` answers `requests.get`;
`writeFault path = some r` means opening/writing `path` raises `r` (the
`try` block covers both requests and both writes, so any such fault
becomes the `error` outcome). -/
def download_one (net : String → HttpResult) (writeFault : String → Option String)
    (fs : FS) (e : Emoji) : StepResult :=
  let path := filepath e
  if (fs.lookup path).isSome then
    ⟨⟨.skipped, .plain e.name, 0⟩, fs, []⟩
  else
    let url := primaryUrl e
    match net url with
    | .fault r => ⟨⟨.error, .exc e.name r, 0⟩, fs, [url]⟩
    | .resp st body =>
      if st = 200 then
        match writeFault path with
        | some r => ⟨⟨.error, .exc e.name r, 0⟩, fs, [url]⟩
        | none =>
          let kb : ℚ := mkRat body.length 1024
          ⟨⟨.ok, .okMsg (tagOf e) kb, kb⟩, (path, body) :: fs, [url]⟩
      else
        let url2 := fallbackUrl e
        match net url2 with
        | .fault r => ⟨⟨.error, .exc e.name r, 0⟩, fs, [url, url2]⟩
        | .resp st2 body2 =>
          if st2 = 200 then
            match writeFault path with
            | some r => ⟨⟨.error, .exc e.name r, 0⟩, fs, [url, url2]⟩
            | none =>
              let kb : ℚ := mkRat body2.length 1024
              ⟨⟨.ok, .okMsg (tagOf e) kb, kb⟩, (path, body2) :: fs, [url, url2]⟩
          else
            ⟨⟨.failed, .httpFail e.name st, 0⟩, fs, [url, url2]⟩

/-! ## The worker pool, counters, and `download_all`

`ThreadPoolExecutor(max_workers=10)` submits every item and the main
thread folds the completed triples into four counters.  The pool is
embedded as a sequential fold threading the filesystem; the counters are
order-independent. -/

/-- All per-item results of one run, the final filesystem, and every URL
requested. -/
structure PoolResult where
  outcomes : List Outcome
  fs : FS
  requests : List String
deriving DecidableEq

/-- One `download_one` per catalog item, threading the filesystem. -/
def run_pool (net : String → HttpResult) (writeFault : String → Option String) :
    FS → List Emoji → PoolResult
  | fs, [] => ⟨[], fs, []⟩
  | fs, e :: rest =>
    let s := download_one net writeFault fs e
    let r := run_pool net writeFault s.fs rest
    ⟨s.outcome :: r.outcomes, r.fs, s.requests ++ r.requests⟩

/-- The aggregate counters `downloaded`, `skipped`, `failed`,
`total_size` of `download_all`. -/
structure Summary where
  downloaded : Nat
  skipped : Nat
  failed : Nat
  total_size : ℚ
deriving DecidableEq

/-- One iteration of the `as_completed` aggregation loop. -/
def tallyStep (s : Summary) (o : Outcome) : Summary :=
  match o.status with
  | .ok => ⟨s.downloaded + 1, s.skipped, s.failed, s.total_size + o.size⟩
  | .skipped => ⟨s.downloaded, s.skipped + 1, s.failed, s.total_size⟩
  | .failed => ⟨s.downloaded, s.skipped, s.failed + 1, s.total_size⟩
  | .error => ⟨s.downloaded, s.skipped, s.failed + 1, s.total_size⟩

/-- The counters after folding every outcome (all start at zero). -/
def tally (os : List Outcome) : Summary := os.foldl tallyStep ⟨0, 0, 0, 0⟩

/-- Sum of the sizes of the `ok` outcomes of a run. -/
def sumOkSizes : List Outcome → ℚ
  | [] => 0
  | o :: os => (if o.status = .ok then o.size else 0) + sumOkSizes os

/-! ## Catalog fetch, run result, event trace -/

/-- The catalog request: a transport fault, or a determinate status with
the parsed `data["icons"]` list (JSON decoding is an assumed
collaborator, so the body is embedded already parsed). -/
inductive CatalogResult where
  | fault (reason : String)
  | resp (status : Nat) (icons : List Emoji)
deriving DecidableEq

/-- Everything ambient that one `download_all()` run consumes. -/
structure RunEnv where
  catalog : CatalogResult
  net : String → HttpResult
  writeFault : String → Option String
  fs0 : FS

/-- Observable side effects of the run, in program order. -/
inductive Event where
  | writeMeta
  | request (url : String)
  | writeCategories
deriving DecidableEq

/-- How the process ends: an uncaught exception (`requests.get(DATA_URL)`
raised), the early `return` on a non-200 catalog status, or normal
completion with the printed summary. -/
inductive RunResult where
  | crashed (reason : String)
  | abortedCatalog (status : Nat)
  | completed (s : Summary)
deriving DecidableEq

/-- The process exit status for each way the run ends: an uncaught
exception exits non-zero; the early `return` and normal completion both
fall off `download_all()` and exit 0. -/
def exitCode : RunResult → Nat
  | .crashed _ => 1
  | .abortedCatalog _ => 0
  | .completed _ => 0

/-- `download_all()`: fetch the catalog, abort early on a non-200
status, otherwise write `_metadata.json`, run the pool, aggregate, and
write `_categories.json`.  Returns the run result and the event trace. -/
def download_all (env : RunEnv) : RunResult × List Event :=
  match env.catalog with
  | .fault r => (.crashed r, [])
  | .resp st icons =>
    if st ≠ 200 then
      (.abortedCatalog st, [])
    else
      let pr := run_pool env.net env.writeFault env.fs0 icons
      (.completed (tally pr.outcomes),
        Event.writeMeta :: (pr.requests.map Event.request ++ [Event.writeCategories]))

/-! ## The category index

```
categories = {}
for emoji in emojis:
    for cat in emoji.get("categories", ["Other"]):
        if cat not in categories: categories[cat] = []
        categories[cat].append({...})
json.dump(categories, f, indent=2)
```
A Python dict preserves insertion order and `json.dump` is called
without `sort_keys`, so the index is embedded as an association list in
insertion order — exactly what the persisted file stores. -/

/-- The lightweight summary the index stores per item. -/
structure ItemSummary where
  codepoint : String
  name : String
  tags : List String
  popularity : Int
deriving DecidableEq

/-- The summary record built for `emoji`
(`emoji.get("popularity", 0)`). -/
def summaryOf (e : Emoji) : ItemSummary :=
  ⟨e.codepoint, e.name, e.tags, e.popularity.getD 0⟩

/-- `emoji.get("categories", ["Other"])`: the default applies only when
the key is absent, not when the stored list is empty. -/
def catsOf (e : Emoji) : List String := e.categories.getD ["Other"]

/-- The index in insertion order. -/
abbrev CatIndex := List (String × List ItemSummary)

/-- Append `s` under `cat`, creating the key at the end on first use
(dict `setdefault`-then-`append` behavior). -/
def addToCategory (idx : CatIndex) (cat : String) (s : ItemSummary) : CatIndex :=
  match idx with
  | [] => [(cat, [s])]
  | (c, l) :: rest =>
    if c = cat then (c, l ++ [s]) :: rest
    else (c, l) :: addToCategory rest cat s

/-- Process one item: append its summary under each of its categories. -/
def addEmoji (idx : CatIndex) (e : Emoji) : CatIndex :=
  (catsOf e).foldl (fun i c => addToCategory i c (summaryOf e)) idx

/-- The full category index of a catalog; this is exactly the mapping
`json.dump` persists to `_categories.json`. -/
def build_categories (emojis : List Emoji) : CatIndex :=
  emojis.foldl addEmoji []

/-- Lookup in the index by category name. -/
def lookupCat : CatIndex → String → Option (List ItemSummary)
  | [], _ => none
  | (c, l) :: rest, cat => if c = cat then some l else lookupCat rest cat

/-- `s` is stored under `cat` in `idx`. -/
def under (idx : CatIndex) (cat : String) (s : ItemSummary) : Prop :=
  s ∈ (lookupCat idx cat).getD []

instance (idx : CatIndex) (cat : String) (s : ItemSummary) :
    Decidable (under idx cat s) := by
  unfold under
  infer_instance

/-- The category names of the index, in stored order. -/
def keysOf (idx : CatIndex) : List String := idx.map Prod.fst

/-- `a` comes lexicographically before `b` (compared as character
sequences, the order `sorted()` uses on the keys). -/
def nameLt (a b : String) : Prop := a.data < b.data

instance : DecidableRel nameLt := fun a b => by
  unfold nameLt
  infer_instance

/-- The persisted file's key sequence is sorted by category name: in
every pair of distinct keys the smaller name appears first. -/
def sortedByName (idx : CatIndex) : Prop :=
  List.Pairwise nameLt (keysOf idx)

instance (idx : CatIndex) : Decidable (sortedByName idx) := by
  unfold sortedByName
  infer_instance

/-- Append a key if it is not present yet. -/
def insertKey (ks : List String) (c : String) : List String :=
  if c ∈ ks then ks else ks ++ [c]

/-- Category names in order of first appearance during catalog
iteration. -/
def firstOccurrences (emojis : List Emoji) : List String :=
  emojis.foldl (fun ks e => (catsOf e).foldl insertKey ks) []

/-! ## Spec-side definitions (for refinement comparison)

The spec describes the normalized tag as the first tag "with a fixed
prefix character stripped"; the following pair of definitions renders
that sentence literally so it can be compared with the script's
normalization. -/

/-- Spec reading of the normalization: only *leading* colons removed,
then hyphens replaced. -/
def normalizeTagSpecRead (tag : String) : String :=
  pyReplaceChar '-' '_' ((tag.toList.dropWhile (· == ':')).asString)

/-- The destination key as the spec sentence reads:
`{id}_{normalizedTag}` with only the leading colons stripped. -/
def destKeySpecRead (e : Emoji) : String :=
  e.codepoint ++ "_" ++ normalizeTagSpecRead (tagOf e)

/-! ## Concrete inputs used by witnesses and counterexamples -/

/-- An item whose `categories` key is present but holds the empty list. -/
def itemEmptyCats : Emoji := ⟨"1f600", "grinning face", [":grin:"], some [], none⟩

/-- An item whose `categories` key is absent. -/
def itemNoCats : Emoji := ⟨"1f62d", "loudly crying face", [":cry:"], none, some 3⟩

/-- An item with a colon-delimited tag, `":art:"`. -/
def itemArt : Emoji := ⟨"1f3a8", "artist palette", [":art:"], some ["Activities"], none⟩

/-- A multi-codepoint item (spaces in `codepoint`), as the fallback URL
targets. -/
def itemComposite : Emoji :=
  ⟨"1f9d1 200d 1f3a8", "artist", [":artist:"], some ["People"], some 5⟩

/-- An item whose only category is `"Bodies"` (used for key ordering). -/
def itemCatB : Emoji := ⟨"1f4aa", "flexed biceps", [":muscle:"], some ["Bodies"], none⟩

/-- An item whose only category is `"Animals"`. -/
def itemCatA : Emoji := ⟨"1f436", "dog face", [":dog:"], some ["Animals"], none⟩

/-- The bytes of `b"PAYLOAD"`. -/
def payloadBytes : List Nat := [80, 65, 89, 76, 79, 65, 68]

/-- A network where the composite item's primary URL answers 404 and its
fallback URL answers 200 with `b"PAYLOAD"`. -/
def netFallback : String → HttpResult := fun u =>
  if u = primaryUrl itemComposite then .resp 404 []
  else if u = fallbackUrl itemComposite then .resp 200 payloadBytes
  else .fault "unexpected request"

/-- A network where every request times out. -/
def netTimeout : String → HttpResult := fun _ => .fault "timeout"

/-- A network where the composite item's primary URL answers 404 and
everything else (the fallback URL included) faults. -/
def netPrimary404FallbackFault : String → HttpResult := fun u =>
  if u = primaryUrl itemComposite then .resp 404 [] else .fault "timeout"

/-- The same codepoint, name and tags as `itemArt`, but different
`categories` and `popularity`. -/
def itemArtVariant : Emoji := ⟨"1f3a8", "artist palette", [":art:"], none, some 9⟩

/-- A filesystem already holding the art item's destination file. -/
def fsWithArt : FS := [(filepath itemArt, payloadBytes)]

/-- No write ever faults. -/
def wfNone : String → Option String := fun _ => none

/-- A run whose catalog request answers HTTP 500. -/
def envCatalog500 : RunEnv := ⟨.resp 500 [itemComposite], netFallback, wfNone, []⟩

/-- A run whose catalog request succeeds with one item, whose download
then succeeds via the fallback URL. -/
def envGood : RunEnv := ⟨.resp 200 [itemComposite], netFallback, wfNone, []⟩


/-! ## Lemmas about the category index -/

theorem lookupCat_addToCategory_self (idx : CatIndex) (cat : String) (s : ItemSummary) :
    lookupCat (addToCategory idx cat s) cat = some ((lookupCat idx cat).getD [] ++ [s]) := by
  induction idx with
  | nil => simp [addToCategory, lookupCat]
  | cons p rest ih =>
    obtain ⟨c, l⟩ := p
    by_cases hc : c = cat
    · subst hc
      simp [addToCategory, lookupCat]
    · simp [addToCategory, lookupCat, hc, ih]

theorem lookupCat_addToCategory_ne (idx : CatIndex) (cat c : String) (s : ItemSummary)
    (h : c ≠ cat) : lookupCat (addToCategory idx cat s) c = lookupCat idx c := by
  induction idx with
  | nil => simp [addToCategory, lookupCat, Ne.symm h]
  | cons p rest ih =>
    obtain ⟨c0, l⟩ := p
    by_cases hc : c0 = cat
    · subst hc
      simp [addToCategory, lookupCat, Ne.symm h]
    · by_cases hc2 : c0 = c
      · subst hc2
        simp [addToCategory, lookupCat, hc]
      · simp [addToCategory, lookupCat, hc, hc2, ih]

theorem under_addToCategory_self (idx : CatIndex) (cat : String) (s : ItemSummary) :
    under (addToCategory idx cat s) cat s := by
  unfold under
  rw [lookupCat_addToCategory_self]
  simp

theorem under_addToCategory_mono (idx : CatIndex) (cat c : String) (s s' : ItemSummary)
    (h : under idx c s) : under (addToCategory idx cat s') c s := by
  unfold under at h ⊢
  by_cases hc : c = cat
  · subst hc
    rw [lookupCat_addToCategory_self]
    exact List.mem_append_left _ h
  · rw [lookupCat_addToCategory_ne idx cat c s' hc]
    exact h

theorem under_addToCategory_cases (idx : CatIndex) (cat c : String) (s s' : ItemSummary)
    (h : under (addToCategory idx cat s') c s) : under idx c s ∨ (c = cat ∧ s = s') := by
  unfold under at h ⊢
  by_cases hc : c = cat
  · subst hc
    rw [lookupCat_addToCategory_self] at h
    simp only [Option.getD_some] at h
    rcases List.mem_append.mp h with h1 | h2
    · exact Or.inl h1
    · exact Or.inr ⟨rfl, List.mem_singleton.mp h2⟩
  · rw [lookupCat_addToCategory_ne idx cat c s' hc] at h
    exact Or.inl h

theorem under_foldlAdd_mono (cats : List String) (s' : ItemSummary) :
    ∀ (idx : CatIndex) (c : String) (s : ItemSummary), under idx c s →
      under (cats.foldl (fun i cc => addToCategory i cc s') idx) c s := by
  induction cats with
  | nil =>
    intro idx c s h
    simpa using h
  | cons cat rest ih =>
    intro idx c s h
    simp only [List.foldl_cons]
    exact ih _ _ _ (under_addToCategory_mono idx cat c s s' h)

theorem under_foldlAdd_self (cats : List String) (s' : ItemSummary) :
    ∀ (idx : CatIndex) (c : String), c ∈ cats →
      under (cats.foldl (fun i cc => addToCategory i cc s') idx) c s' := by
  induction cats with
  | nil =>
    intro idx c h
    simp at h
  | cons cat rest ih =>
    intro idx c h
    simp only [List.foldl_cons]
    rcases List.mem_cons.mp h with h1 | h2
    · subst h1
      exact under_foldlAdd_mono rest s' _ c s' (under_addToCategory_self idx c s')
    · exact ih _ c h2

theorem under_foldlAdd_cases (cats : List String) (s' : ItemSummary) :
    ∀ (idx : CatIndex) (c : String) (s : ItemSummary),
      under (cats.foldl (fun i cc => addToCategory i cc s') idx) c s →
      under idx c s ∨ (c ∈ cats ∧ s = s') := by
  induction cats with
  | nil =>
    intro idx c s h
    exact Or.inl (by simpa using h)
  | cons cat rest ih =>
    intro idx c s h
    simp only [List.foldl_cons] at h
    rcases ih _ c s h with h1 | h2
    · rcases under_addToCategory_cases idx cat c s s' h1 with h3 | ⟨hceq, hseq⟩
      · exact Or.inl h3
      · exact Or.inr ⟨hceq ▸ List.mem_cons_self cat rest, hseq⟩
    · exact Or.inr ⟨List.mem_cons_of_mem cat h2.1, h2.2⟩

theorem under_buildFold_mono (es : List Emoji) :
    ∀ (idx : CatIndex) (c : String) (s : ItemSummary), under idx c s →
      under (es.foldl addEmoji idx) c s := by
  induction es with
  | nil =>
    intro idx c s h
    simpa using h
  | cons e rest ih =>
    intro idx c s h
    simp only [List.foldl_cons]
    exact ih _ _ _ (under_foldlAdd_mono (catsOf e) (summaryOf e) idx c s h)

theorem under_build_aux (e : Emoji) (c : String) (hc : c ∈ catsOf e) :
    ∀ (es : List Emoji) (idx : CatIndex), e ∈ es →
      under (es.foldl addEmoji idx) c (summaryOf e) := by
  intro es
  induction es with
  | nil =>
    intro idx h
    simp at h
  | cons e0 rest ih =>
    intro idx h
    simp only [List.foldl_cons]
    rcases List.mem_cons.mp h with h1 | h2
    · subst h1
      exact under_buildFold_mono rest _ c _ (under_foldlAdd_self (catsOf e) (summaryOf e) idx c hc)
    · exact ih _ h2

theorem under_build_of_mem (es : List Emoji) (e : Emoji) (he : e ∈ es) (c : String)
    (hc : c ∈ catsOf e) : under (build_categories es) c (summaryOf e) :=
  under_build_aux e c hc es [] he

theorem under_buildFold_cases (es : List Emoji) :
    ∀ (idx : CatIndex) (c : String) (s : ItemSummary),
      under (es.foldl addEmoji idx) c s →
      under idx c s ∨ ∃ e, e ∈ es ∧ summaryOf e = s ∧ c ∈ catsOf e := by
  induction es with
  | nil =>
    intro idx c s h
    exact Or.inl (by simpa using h)
  | cons e0 rest ih =>
    intro idx c s h
    simp only [List.foldl_cons] at h
    rcases ih _ c s h with h1 | ⟨e, he, hs, hcat⟩
    · rcases under_foldlAdd_cases (catsOf e0) (summaryOf e0) idx c s h1 with h2 | ⟨hcat, hseq⟩
      · exact Or.inl h2
      · exact Or.inr ⟨e0, List.mem_cons_self e0 rest, hseq.symm, hcat⟩
    · exact Or.inr ⟨e, List.mem_cons_of_mem e0 he, hs, hcat⟩

theorem under_build_cases (es : List Emoji) (c : String) (s : ItemSummary)
    (h : under (build_categories es) c s) :
    ∃ e, e ∈ es ∧ summaryOf e = s ∧ c ∈ catsOf e := by
  rcases under_buildFold_cases es [] c s h with h1 | h2
  · exact absurd h1 (by simp [under, lookupCat])
  · exact h2

/-! ## Lemmas about the key order of the index -/

theorem keysOf_addToCategory (idx : CatIndex) (cat : String) (s : ItemSummary) :
    keysOf (addToCategory idx cat s) = insertKey (keysOf idx) cat := by
  induction idx with
  | nil => simp [addToCategory, keysOf, insertKey]
  | cons p rest ih =>
    obtain ⟨c, l⟩ := p
    by_cases hc : c = cat
    · subst hc
      simp [addToCategory, keysOf, insertKey]
    · have h1 : keysOf ((c, l) :: addToCategory rest cat s)
          = c :: keysOf (addToCategory rest cat s) := rfl
      have h2 : keysOf ((c, l) :: rest) = c :: keysOf rest := rfl
      rw [show addToCategory ((c, l) :: rest) cat s
            = (c, l) :: addToCategory rest cat s from by simp [addToCategory, hc],
          h1, ih, h2]
      unfold insertKey
      by_cases hm : cat ∈ keysOf rest
      · simp [hm, Ne.symm hc]
      · simp [hm, Ne.symm hc]

theorem keysOf_foldlAdd (cats : List String) (s' : ItemSummary) :
    ∀ idx : CatIndex,
      keysOf (cats.foldl (fun i c => addToCategory i c s') idx)
        = cats.foldl insertKey (keysOf idx) := by
  induction cats with
  | nil => intro idx; rfl
  | cons cat rest ih =>
    intro idx
    simp only [List.foldl_cons]
    rw [ih, keysOf_addToCategory]

theorem keysOf_buildFold (es : List Emoji) :
    ∀ idx : CatIndex,
      keysOf (es.foldl addEmoji idx)
        = es.foldl (fun ks e => (catsOf e).foldl insertKey ks) (keysOf idx) := by
  induction es with
  | nil => intro idx; rfl
  | cons e rest ih =>
    intro idx
    simp only [List.foldl_cons]
    rw [ih]
    congr 1
    exact keysOf_foldlAdd (catsOf e) (summaryOf e) idx

/-! ## Lemmas about the aggregation loop -/

theorem tally_foldl (os : List Outcome) :
    ∀ s0 : Summary,
      ((os.foldl tallyStep s0).downloaded + (os.foldl tallyStep s0).skipped
          + (os.foldl tallyStep s0).failed
        = s0.downloaded + s0.skipped + s0.failed + os.length)
      ∧ (os.foldl tallyStep s0).total_size = s0.total_size + sumOkSizes os := by
  induction os with
  | nil =>
    intro s0
    simp [sumOkSizes]
  | cons o rest ih =>
    intro s0
    simp only [List.foldl_cons, sumOkSizes, List.length_cons]
    rcases ih (tallyStep s0 o) with ⟨h1, h2⟩
    constructor
    · rw [h1]
      cases h : o.status <;> simp [tallyStep, h] <;> omega
    · rw [h2]
      cases h : o.status <;> simp [tallyStep, h, add_assoc]

/-! ## Branch lemmas for `download_one` -/

theorem download_one_skip (net : String → HttpResult) (wf : String → Option String)
    (fs : FS) (e : Emoji) (h : (fs.lookup (filepath e)).isSome) :
    download_one net wf fs e = ⟨⟨.skipped, .plain e.name, 0⟩, fs, []⟩ := by
  unfold download_one
  simp [h]

theorem download_one_primary_fault (net : String → HttpResult) (wf : String → Option String)
    (fs : FS) (e : Emoji) (r : String) (h1 : fs.lookup (filepath e) = none)
    (h2 : net (primaryUrl e) = .fault r) :
    download_one net wf fs e = ⟨⟨.error, .exc e.name r, 0⟩, fs, [primaryUrl e]⟩ := by
  unfold download_one
  simp [h1, h2]

theorem download_one_primary_200 (net : String → HttpResult) (wf : String → Option String)
    (fs : FS) (e : Emoji) (body : List Nat) (h1 : fs.lookup (filepath e) = none)
    (h2 : net (primaryUrl e) = .resp 200 body) (h3 : wf (filepath e) = none) :
    download_one net wf fs e =
      ⟨⟨.ok, .okMsg (tagOf e) (mkRat body.length 1024), mkRat body.length 1024⟩,
        (filepath e, body) :: fs, [primaryUrl e]⟩ := by
  unfold download_one
  simp [h1, h2, h3]

theorem download_one_primary_200_wfault (net : String → HttpResult) (wf : String → Option String)
    (fs : FS) (e : Emoji) (body : List Nat) (r : String) (h1 : fs.lookup (filepath e) = none)
    (h2 : net (primaryUrl e) = .resp 200 body) (h3 : wf (filepath e) = some r) :
    download_one net wf fs e = ⟨⟨.error, .exc e.name r, 0⟩, fs, [primaryUrl e]⟩ := by
  unfold download_one
  simp [h1, h2, h3]

theorem download_one_fallback_fault (net : String → HttpResult) (wf : String → Option String)
    (fs : FS) (e : Emoji) (st : Nat) (body : List Nat) (r : String)
    (h1 : fs.lookup (filepath e) = none) (h2 : net (primaryUrl e) = .resp st body)
    (hst : st ≠ 200) (h3 : net (fallbackUrl e) = .fault r) :
    download_one net wf fs e =
      ⟨⟨.error, .exc e.name r, 0⟩, fs, [primaryUrl e, fallbackUrl e]⟩ := by
  unfold download_one
  simp [h1, h2, hst, h3]

theorem download_one_fallback_200 (net : String → HttpResult) (wf : String → Option String)
    (fs : FS) (e : Emoji) (st : Nat) (body body2 : List Nat)
    (h1 : fs.lookup (filepath e) = none) (h2 : net (primaryUrl e) = .resp st body)
    (hst : st ≠ 200) (h3 : net (fallbackUrl e) = .resp 200 body2)
    (h4 : wf (filepath e) = none) :
    download_one net wf fs e =
      ⟨⟨.ok, .okMsg (tagOf e) (mkRat body2.length 1024), mkRat body2.length 1024⟩,
        (filepath e, body2) :: fs, [primaryUrl e, fallbackUrl e]⟩ := by
  unfold download_one
  simp [h1, h2, hst, h3, h4]

theorem download_one_fallback_200_wfault (net : String → HttpResult)
    (wf : String → Option String) (fs : FS) (e : Emoji) (st : Nat) (body body2 : List Nat)
    (r : String) (h1 : fs.lookup (filepath e) = none) (h2 : net (primaryUrl e) = .resp st body)
    (hst : st ≠ 200) (h3 : net (fallbackUrl e) = .resp 200 body2)
    (h4 : wf (filepath e) = some r) :
    download_one net wf fs e =
      ⟨⟨.error, .exc e.name r, 0⟩, fs, [primaryUrl e, fallbackUrl e]⟩ := by
  unfold download_one
  simp [h1, h2, hst, h3, h4]

theorem download_one_both_nonsuccess (net : String → HttpResult) (wf : String → Option String)
    (fs : FS) (e : Emoji) (st st2 : Nat) (body body2 : List Nat)
    (h1 : fs.lookup (filepath e) = none) (h2 : net (primaryUrl e) = .resp st body)
    (hst : st ≠ 200) (h3 : net (fallbackUrl e) = .resp st2 body2) (hst2 : st2 ≠ 200) :
    download_one net wf fs e =
      ⟨⟨.failed, .httpFail e.name st, 0⟩, fs, [primaryUrl e, fallbackUrl e]⟩ := by
  unfold download_one
  simp [h1, h2, hst, h3, hst2]

/-- The URLs `download_one` requests are determined by the primary
response alone: one request on a fault or a success, both on a
determinate non-success. -/
theorem download_one_requests (net : String → HttpResult) (wf : String → Option String)
    (fs : FS) (e : Emoji) (h1 : fs.lookup (filepath e) = none) :
    (download_one net wf fs e).requests =
      match net (primaryUrl e) with
      | .fault _ => [primaryUrl e]
      | .resp st _ => if st = 200 then [primaryUrl e] else [primaryUrl e, fallbackUrl e] := by
  rcases hnet : net (primaryUrl e) with ⟨st, body⟩ | r
  · by_cases hst : st = 200
    · subst hst
      rcases hwf : wf (filepath e) with _ | r
      · rw [download_one_primary_200 net wf fs e body h1 hnet hwf]
        simp
      · rw [download_one_primary_200_wfault net wf fs e body r h1 hnet hwf]
        simp
    · rcases hnet2 : net (fallbackUrl e) with ⟨st2, body2⟩ | r
      · by_cases hst2 : st2 = 200
        · subst hst2
          rcases hwf : wf (filepath e) with _ | r
          · rw [download_one_fallback_200 net wf fs e st body body2 h1 hnet hst hnet2 hwf]
            simp [hst]
          · rw [download_one_fallback_200_wfault net wf fs e st body body2 r h1 hnet hst hnet2 hwf]
            simp [hst]
        · rw [download_one_both_nonsuccess net wf fs e st st2 body body2 h1 hnet hst hnet2 hst2]
          simp [hst]
      · rw [download_one_fallback_fault net wf fs e st body r h1 hnet hst hnet2]
        simp [hst]
  · rw [download_one_primary_fault net wf fs e r h1 hnet]

/-! ## Lemmas about the pool -/

theorem run_pool_outcomes_length (net : String → HttpResult) (wf : String → Option String) :
    ∀ (fs : FS) (es : List Emoji), (run_pool net wf fs es).outcomes.length = es.length := by
  intro fs es
  induction es generalizing fs with
  | nil => rfl
  | cons e rest ih => simp [run_pool, ih]

theorem run_pool_all_skipped (net : String → HttpResult) (wf : String → Option String) :
    ∀ (fs : FS) (es : List Emoji), (∀ e, e ∈ es → (fs.lookup (filepath e)).isSome) →
      run_pool net wf fs es
        = ⟨es.map (fun e => ⟨.skipped, .plain e.name, 0⟩), fs, []⟩ := by
  intro fs es
  induction es generalizing fs with
  | nil => intro _; rfl
  | cons e rest ih =>
    intro h
    have hstep := download_one_skip net wf fs e (h e (List.mem_cons_self e rest))
    have hrest := ih fs (fun e' he' => h e' (List.mem_cons_of_mem e he'))
    simp [run_pool, hstep, hrest]

/-! ## The claims -/

/-- C1, counterexample: an item whose `categories` field is present but
empty is placed under *no* category at all — `dict.get` only applies the
`["Other"]` default when the key is absent — so its summary is not under
`"Other"`, contrary to the claim. -/
theorem c1_counterexample :
    itemEmptyCats.categories = some []
  ∧ build_categories [itemEmptyCats] = []
  ∧ ¬ under (build_categories [itemEmptyCats]) "Other" (summaryOf itemEmptyCats) := by
  decide

/-- C1, amended: an item whose `categories` *key is absent* is indexed
under `"Other"`, and it appears under another category only if some
catalog item with an identical summary lists that category; an item with
a present-but-empty `categories` list is indexed under no category. -/
theorem c1_absent_categories_under_other (es : List Emoji) (e : Emoji) (he : e ∈ es)
    (hc : e.categories = none) :
    under (build_categories es) "Other" (summaryOf e)
  ∧ ∀ c, c ≠ "Other" → under (build_categories es) c (summaryOf e) →
      ∃ e', e' ∈ es ∧ summaryOf e' = summaryOf e ∧ c ∈ catsOf e' := by
  constructor
  · apply under_build_of_mem es e he
    simp [catsOf, hc]
  · intro c _ h
    exact under_build_cases es c (summaryOf e) h

/-- C1, witness: the no-categories item of the singleton catalog is
indexed under `"Other"`. -/
theorem c1_witness : under (build_categories [itemNoCats]) "Other" (summaryOf itemNoCats) :=
  (c1_absent_categories_under_other [itemNoCats] itemNoCats (List.mem_singleton.mpr rfl)
    rfl).1

/-- C2, counterexample: primary 404 and fallback 200 with the 7-byte
body `b"PAYLOAD"` produce the `ok` outcome carrying size `7/1024` — the
script stores `len(content) / 1024` (kilobytes) — not `Ok(7)`; the
destination file does contain exactly the body bytes. -/
theorem c2_counterexample :
    payloadBytes.length = 7
  ∧ (download_one netFallback wfNone [] itemComposite).outcome.status = .ok
  ∧ (download_one netFallback wfNone [] itemComposite).outcome.size = mkRat 7 1024
  ∧ (download_one netFallback wfNone [] itemComposite).outcome.size ≠ 7
  ∧ (download_one netFallback wfNone [] itemComposite).fs.lookup (filepath itemComposite)
      = some payloadBytes := by
  decide

/-- C2, amended: for an item with no file on disk, a determinate
non-success primary response and a 200 fallback response with body `b`
(and a non-faulting write), `download_one` returns the `ok` outcome with
size `mkRat (length b) 1024` — the byte length in kilobytes — and the
destination file holds exactly the body bytes. -/
theorem c2_fallback_ok_kilobytes (net : String → HttpResult) (wf : String → Option String)
    (fs : FS) (e : Emoji) (st : Nat) (body body2 : List Nat)
    (h1 : fs.lookup (filepath e) = none) (h2 : net (primaryUrl e) = .resp st body)
    (hst : st ≠ 200) (h3 : net (fallbackUrl e) = .resp 200 body2)
    (h4 : wf (filepath e) = none) :
    (download_one net wf fs e).outcome.status = .ok
  ∧ (download_one net wf fs e).outcome.size = mkRat body2.length 1024
  ∧ (download_one net wf fs e).fs.lookup (filepath e) = some body2 := by
  rw [download_one_fallback_200 net wf fs e st body body2 h1 h2 hst h3 h4]
  refine ⟨rfl, rfl, ?_⟩
  simp [List.lookup]

/-- C2, witness: the amended statement at the concrete `b"PAYLOAD"`
scenario. -/
theorem c2_witness :
    (download_one netFallback wfNone [] itemComposite).outcome.status = .ok
  ∧ (download_one netFallback wfNone [] itemComposite).outcome.size
      = mkRat payloadBytes.length 1024
  ∧ (download_one netFallback wfNone [] itemComposite).fs.lookup (filepath itemComposite)
      = some payloadBytes :=
  c2_fallback_ok_kilobytes netFallback wfNone [] itemComposite 404 [] payloadBytes
    (by decide) (by decide) (by decide) (by decide) (by decide)

/-- C3, counterexample: a catalog request answered with HTTP 500 — a
failed catalog fetch — makes the run abort early (`print` + `return`),
which is exit code 0, not a non-zero exit; so "non-zero exit iff the
catalog fetch returns a non-success status" is false.  No download, no
metadata, no index write happens (the event trace is empty). -/
theorem c3_counterexample :
    envCatalog500.catalog = .resp 500 [itemComposite]
  ∧ (download_all envCatalog500).1 = .abortedCatalog 500
  ∧ exitCode (download_all envCatalog500).1 = 0
  ∧ (download_all envCatalog500).2 = [] := by
  decide

/-- C3, amended: the run exits non-zero exactly when the catalog request
raises a transport fault (the exception is uncaught); a determinate
non-success status aborts the run early — nothing downloaded, nothing
persisted — but exits 0; and whenever the catalog fetch returns 200 the
run completes with a summary, regardless of individual item failures. -/
theorem c3_exit_behavior (env : RunEnv) :
    (exitCode (download_all env).1 ≠ 0 ↔ ∃ r, env.catalog = .fault r)
  ∧ (∀ st icons, env.catalog = .resp st icons → st ≠ 200 →
      (download_all env).1 = .abortedCatalog st ∧ (download_all env).2 = [])
  ∧ (∀ icons, env.catalog = .resp 200 icons →
      ∃ s, (download_all env).1 = .completed s) := by
  refine ⟨?_, ?_, ?_⟩
  · rcases h : env.catalog with r | ⟨st, icons⟩
    · simp [download_all, h, exitCode]
    · by_cases hst : st = 200
      · subst hst
        simp [download_all, h, exitCode]
      · simp [download_all, h, hst, exitCode]
  · intro st icons h hst
    constructor
    · simp [download_all, h, hst]
    · simp [download_all, h, hst]
  · intro icons h
    refine ⟨tally (run_pool env.net env.writeFault env.fs0 icons).outcomes, ?_⟩
    simp [download_all, h]

/-- C3, witness: a run whose catalog fetch succeeds (and whose single
item downloads via the fallback) completes with a summary. -/
theorem c3_witness : ∃ s, (download_all envGood).1 = .completed s :=
  (c3_exit_behavior envGood).2.2 [itemComposite] rfl

/-- C4, counterexample: a catalog whose first item is in `"Bodies"` and
second in `"Animals"` persists the keys in insertion order
`["Bodies", "Animals"]`; `"Animals"` is the smaller name yet appears
second, so the persisted `_categories.json` is not category-name-sorted
(`json.dump` is called without `sort_keys`; only the console report
iterates `sorted(categories.items())`). -/
theorem c4_counterexample :
    keysOf (build_categories [itemCatB, itemCatA]) = ["Bodies", "Animals"]
  ∧ nameLt "Animals" "Bodies"
  ∧ ¬ sortedByName (build_categories [itemCatB, itemCatA]) := by
  decide

/-- C4, amended: the persisted `_categories.json` stores the category
index with its keys in order of first appearance during catalog
iteration (dict insertion order), not sorted by name. -/
theorem c4_insertion_order (emojis : List Emoji) :
    keysOf (build_categories emojis) = firstOccurrences emojis := by
  unfold build_categories firstOccurrences
  rw [keysOf_buildFold]
  rfl

/-- C5: a transport-level fault on the primary request yields the
`error` outcome with the primary URL as the only request issued — the
fallback is never contacted; and exactly two requests are issued
(primary then fallback) precisely when the primary returned a
determinate non-success status. -/
theorem c5_fault_short_circuit (net : String → HttpResult) (wf : String → Option String)
    (fs : FS) (e : Emoji) (h1 : fs.lookup (filepath e) = none) :
    (∀ r, net (primaryUrl e) = .fault r →
        (download_one net wf fs e).outcome.status = .error
      ∧ (download_one net wf fs e).requests = [primaryUrl e])
  ∧ ((download_one net wf fs e).requests.length = 2 ↔
      ∃ st body, net (primaryUrl e) = .resp st body ∧ st ≠ 200)
  ∧ ((download_one net wf fs e).requests.length = 2 →
      (download_one net wf fs e).requests = [primaryUrl e, fallbackUrl e]) := by
  have hreq := download_one_requests net wf fs e h1
  refine ⟨?_, ?_, ?_⟩
  · intro r hr
    rw [download_one_primary_fault net wf fs e r h1 hr]
    exact ⟨rfl, rfl⟩
  · rw [hreq]
    generalize net (primaryUrl e) = v
    rcases v with ⟨st, body⟩ | r
    · by_cases hst : st = 200
      · subst hst
        simp
      · simp [hst]
    · simp
  · rw [hreq]
    generalize net (primaryUrl e) = v
    rcases v with ⟨st, body⟩ | r
    · by_cases hst : st = 200
      · subst hst
        intro hlen
        simp at hlen
      · simp [hst]
    · intro hlen
      simp at hlen

/-- C5, witness: with a timing-out network, the composite item's fetch
is an `error` and only the primary URL was requested. -/
theorem c5_witness :
    (download_one netTimeout wfNone [] itemComposite).outcome.status = .error
  ∧ (download_one netTimeout wfNone [] itemComposite).requests = [primaryUrl itemComposite] :=
  (c5_fault_short_circuit netTimeout wfNone [] itemComposite (by decide)).1 "timeout" rfl

/-- C6: when the destination file already exists, `download_one` returns
`skipped`, touches nothing, and issues no request; consequently a pool
run over a catalog whose destination files all exist issues zero
requests, leaves the filesystem unchanged, and reports every item
skipped. -/
theorem c6_skip_existing :
    (∀ (net : String → HttpResult) (wf : String → Option String) (fs : FS) (e : Emoji),
        (fs.lookup (filepath e)).isSome →
        download_one net wf fs e = ⟨⟨.skipped, .plain e.name, 0⟩, fs, []⟩)
  ∧ (∀ (net : String → HttpResult) (wf : String → Option String) (fs : FS)
        (es : List Emoji), (∀ e, e ∈ es → (fs.lookup (filepath e)).isSome) →
        (run_pool net wf fs es).requests = []
      ∧ (run_pool net wf fs es).fs = fs
      ∧ ∀ o, o ∈ (run_pool net wf fs es).outcomes → o.status = .skipped) := by
  constructor
  · exact download_one_skip
  · intro net wf fs es h
    rw [run_pool_all_skipped net wf fs es h]
    refine ⟨rfl, rfl, ?_⟩
    intro o ho
    simp only [List.mem_map] at ho
    obtain ⟨e, _, rfl⟩ := ho
    rfl

/-- C6, witness: with the art item's file on disk, its fetch is skipped
with no request, on an otherwise timing-out network. -/
theorem c6_witness :
    download_one netTimeout wfNone fsWithArt itemArt
      = ⟨⟨.skipped, .plain itemArt.name, 0⟩, fsWithArt, []⟩ :=
  c6_skip_existing.1 netTimeout wfNone fsWithArt itemArt (by decide)

/-- C7: every run with a 200 catalog response over `n` items completes
with counters satisfying `downloaded + skipped + failed = n`, and the
reported total size is the sum of the sizes of the `ok` outcomes. -/
theorem c7_counters_consistent (env : RunEnv) (icons : List Emoji)
    (h : env.catalog = .resp 200 icons) :
    ∃ s : Summary, (download_all env).1 = .completed s
      ∧ s.downloaded + s.skipped + s.failed = icons.length
      ∧ s.total_size = sumOkSizes (run_pool env.net env.writeFault env.fs0 icons).outcomes := by
  refine ⟨tally (run_pool env.net env.writeFault env.fs0 icons).outcomes, ?_, ?_, ?_⟩
  · simp [download_all, h]
  · have h1 := (tally_foldl (run_pool env.net env.writeFault env.fs0 icons).outcomes
      ⟨0, 0, 0, 0⟩).1
    unfold tally
    rw [h1]
    simp [run_pool_outcomes_length]
  · have h2 := (tally_foldl (run_pool env.net env.writeFault env.fs0 icons).outcomes
      ⟨0, 0, 0, 0⟩).2
    unfold tally
    rw [h2]
    simp

/-- C7, witness: the single-item run with a fallback download satisfies
the counter identities. -/
theorem c7_witness :
    ∃ s : Summary, (download_all envGood).1 = .completed s
      ∧ s.downloaded + s.skipped + s.failed = [itemComposite].length
      ∧ s.total_size
          = sumOkSizes (run_pool envGood.net envGood.writeFault envGood.fs0
              [itemComposite]).outcomes :=
  c7_counters_consistent envGood [itemComposite] rfl

/-- C8, counterexample: for the tag `":art:"` the script's key strips
the colon from *both* ends (`strip(':')`), giving `1f3a8_art`, while the
claim's "prefix character stripped" reading gives `1f3a8_art:` — the two
differ, so the stated normalization rule is not the one implemented. -/
theorem c8_counterexample :
    destKey itemArt = "1f3a8_art"
  ∧ destKeySpecRead itemArt = "1f3a8_art:"
  ∧ destKey itemArt ≠ destKeySpecRead itemArt := by
  decide

/-- C8, amended: the destination key is
`{id}_{normalizedTag}` where the normalized tag is the first tag (or
the display name when there is no tag) with the fixed character `':'`
stripped from both ends and hyphens replaced by underscores; the key is
a pure function of `(codepoint, name, tags)` alone, so two evaluations
on the same item always agree. -/
theorem c8_destkey_deterministic (e e' : Emoji) :
    destKey e
      = e.codepoint ++ "_" ++ pyReplaceChar '-' '_' (pyStrip ':' (e.tags.headD e.name))
  ∧ (e.codepoint = e'.codepoint → e.name = e'.name → e.tags = e'.tags →
      destKey e = destKey e') := by
  refine ⟨rfl, ?_⟩
  intro h1 h2 h3
  unfold destKey normalizeTag tagOf
  rw [h1, h2, h3]

/-- C8, witness: two records agreeing on codepoint, name and tags but
differing in categories and popularity get the same key. -/
theorem c8_witness : destKey itemArt = destKey itemArtVariant :=
  (c8_destkey_deterministic itemArt itemArtVariant).2 rfl rfl rfl

/-- C9: in every run whose catalog request returns 200, the event trace
starts with the `_metadata.json` write, and every network request of the
run occurs strictly after it. -/
theorem c9_metadata_before_downloads (env : RunEnv) (icons : List Emoji)
    (h : env.catalog = .resp 200 icons) :
    ∃ rest, (download_all env).2 = Event.writeMeta :: rest
      ∧ ∀ u, Event.request u ∈ (download_all env).2 → Event.request u ∈ rest := by
  have htr : (download_all env).2
      = Event.writeMeta ::
        ((run_pool env.net env.writeFault env.fs0 icons).requests.map Event.request
          ++ [Event.writeCategories]) := by
    simp [download_all, h]
  refine ⟨_, htr, ?_⟩
  intro u hu
  rw [htr] at hu
  rcases List.mem_cons.mp hu with h1 | h2
  · exact absurd h1 (by simp)
  · exact h2

/-- C9, witness: the trace of the single-item run opens with the
metadata write, every request after it. -/
theorem c9_witness :
    ∃ rest, (download_all envGood).2 = Event.writeMeta :: rest
      ∧ ∀ u, Event.request u ∈ (download_all envGood).2 → Event.request u ∈ rest :=
  c9_metadata_before_downloads envGood [itemComposite] rfl

/-- C10: `download_one` is total — its result always carries one of the
four tags — and a transport fault on the fallback attempt, or a write
fault after either successful response, is caught by the `try` block and
becomes the `error` outcome (never `failed`, never an exception). -/
theorem c10_total_tagged (net : String → HttpResult) (wf : String → Option String)
    (fs : FS) (e : Emoji) :
    ((download_one net wf fs e).outcome.status = .ok
   ∨ (download_one net wf fs e).outcome.status = .skipped
   ∨ (download_one net wf fs e).outcome.status = .failed
   ∨ (download_one net wf fs e).outcome.status = .error)
  ∧ (∀ st body r, fs.lookup (filepath e) = none →
       net (primaryUrl e) = .resp st body → st ≠ 200 →
       net (fallbackUrl e) = .fault r →
       (download_one net wf fs e).outcome = ⟨.error, .exc e.name r, 0⟩)
  ∧ (∀ body r, fs.lookup (filepath e) = none →
       net (primaryUrl e) = .resp 200 body → wf (filepath e) = some r →
       (download_one net wf fs e).outcome = ⟨.error, .exc e.name r, 0⟩)
  ∧ (∀ st body body2 r, fs.lookup (filepath e) = none →
       net (primaryUrl e) = .resp st body → st ≠ 200 →
       net (fallbackUrl e) = .resp 200 body2 → wf (filepath e) = some r →
       (download_one net wf fs e).outcome = ⟨.error, .exc e.name r, 0⟩) := by
  refine ⟨?_, ?_, ?_, ?_⟩
  · cases h : (download_one net wf fs e).outcome.status
    · exact Or.inl rfl
    · exact Or.inr (Or.inl rfl)
    · exact Or.inr (Or.inr (Or.inl rfl))
    · exact Or.inr (Or.inr (Or.inr rfl))
  · intro st body r h1 h2 hst h3
    rw [download_one_fallback_fault net wf fs e st body r h1 h2 hst h3]
  · intro body r h1 h2 h3
    rw [download_one_primary_200_wfault net wf fs e body r h1 h2 h3]
  · intro st body body2 r h1 h2 hst h3 h4
    rw [download_one_fallback_200_wfault net wf fs e st body body2 r h1 h2 hst h3 h4]

/-- C10, witness: a 404 primary followed by a fallback transport fault
is reported as the `error` outcome. -/
theorem c10_witness :
    (download_one netPrimary404FallbackFault wfNone [] itemComposite).outcome
      = ⟨.error, .exc itemComposite.name "timeout", 0⟩ :=
  (c10_total_tagged netPrimary404FallbackFault wfNone [] itemComposite).2.1 404 [] "timeout"
    (by decide) (by decide) (by decide) (by decide)
